import Mathlib

/-!
Verification of the arena402 paywall / payment-settlement core.

This file gives a shallow embedding, in Lean 4, of the paywall
access-control and payment-settlement state machine of the repository:
the payment store (`recordPayment`, `settlePayment`, `failPayment`,
`getPaymentById`), the access ledger (`hasAccess`, `grantAccess`,
`getBlockAccessStatus`), the paywall registry (`getPaywallByBlockId`,
`updatePaywall`, `deletePaywall`, `getPaywallsForBlocks`), the USDC
minor-unit conversions (`usdcToAtomic`, `atomicToUsdc`) and the x402
settlement coordinator (`processPayment`).

Databases are modelled as in-memory lists of rows; the external
settlement oracle is modelled as data describing the outcome of its
`verify` and `settle` calls (including the throwing case, as
`Except.error`).  JavaScript number arithmetic (`parseFloat`,
multiplication, division, `toFixed`) is modelled exactly: an IEEE-754
binary64 value is a rational number, and each arithmetic step applies
`rnd64`, correct rounding to 53 significant bits with ties to even.
-/

/-! ## IEEE-754 binary64 rounding, modelled on rationals -/

/-- Round a rational to an integer, ties to even (the IEEE-754 default
rounding used by JavaScript arithmetic). -/
def roundTiesEven (x : ℚ) : ℤ :=
  let f := ⌊x⌋
  if x - f = 1 / 2 then (if f % 2 = 0 then f else f + 1) else round x

/-- The binary exponent of a positive rational: the unique `e` with
`2 ^ e ≤ q < 2 ^ (e + 1)`.  Computed from `Nat.log2` of the numerator and
denominator (both kernel-reducible), with a one-step correction. -/
def expo2 (q : ℚ) : ℤ :=
  if (2 : ℚ) ^ ((Nat.log2 q.num.natAbs : ℤ) - (Nat.log2 q.den : ℤ)) ≤ q
  then (Nat.log2 q.num.natAbs : ℤ) - (Nat.log2 q.den : ℤ)
  else (Nat.log2 q.num.natAbs : ℤ) - (Nat.log2 q.den : ℤ) - 1

/-- Round a nonnegative rational to the nearest IEEE-754 binary64 value
(53 significant bits, ties to even).  All inputs arising in this
development lie far inside the normal range, so neither subnormals nor
overflow need to be modelled. -/
def rnd64 (q : ℚ) : ℚ :=
  if q ≤ 0 then 0
  else
    (roundTiesEven (q * (2 : ℚ) ^ ((52 : ℤ) - expo2 q)) : ℚ) * (2 : ℚ) ^ (expo2 q - (52 : ℤ))

/-! ## Decimal digit strings -/

/-- Little-endian base-10 digits, with explicit fuel so that the
definition is structural (and hence kernel-reducible). -/
def natDigitsAux : Nat → Nat → List Nat
  | 0, _ => []
  | _ + 1, 0 => []
  | fuel + 1, n + 1 => ((n + 1) % 10) :: natDigitsAux fuel ((n + 1) / 10)

/-- Little-endian base-10 digits of `n` (empty for `0`). -/
def natDigitsLE (n : Nat) : List Nat := natDigitsAux n n

/-- Big-endian base-10 digits of `n`, printing `0` as `[0]`. -/
def natDigitsBE (n : Nat) : List Nat :=
  if n = 0 then [0] else (natDigitsLE n).reverse

/-- Value of a big-endian digit list. -/
def natOfDigits (ds : List Nat) : Nat := ds.foldl (fun a d => a * 10 + d) 0

/-- Split a leading run of decimal digits (as digit values) off a
character list, returning the remainder; models the digit-consuming
part of JavaScript number parsing. -/
def takeDigits : List Char → List Nat × List Char
  | [] => ([], [])
  | c :: cs =>
    if c.isDigit then
      let r := takeDigits cs
      ((c.toNat - 48) :: r.1, r.2)
    else ([], c :: cs)

/-- Left-pad a digit list with zeros to length `k`. -/
def padDigits (k : Nat) (ds : List Nat) : List Nat :=
  List.replicate (k - ds.length) 0 ++ ds

/-- JavaScript `toLowerCase()`, modelled characterwise (equal to
`String.toLower`, but structurally recursive on the character list). -/
def strLower (s : String) : String := String.mk (s.toList.map Char.toLower)

/-- Decimal string of a natural number. -/
def natStr (n : Nat) : String :=
  String.mk ((natDigitsBE n).map Nat.digitChar)

/-- Decimal string of an integer. -/
def intToStr (z : Int) : String :=
  if z < 0 then "-" ++ natStr z.natAbs else natStr z.natAbs

/-- Render `m` minor units (millionths) as a fixed-point decimal string
with six fractional digits — the output format of JavaScript
`toFixed(6)` on nonnegative values below `1e21`. -/
def formatFixed6 (m : Nat) : String :=
  String.mk ((natDigitsBE (m / 1000000)).map Nat.digitChar
    ++ '.' :: (padDigits 6 (natDigitsBE (m % 1000000))).map Nat.digitChar)

/-- JavaScript `parseFloat`, modelled for nonnegative decimal literals
(an optional integer part, an optional '.' and fraction, longest valid
prefix); `none` models `NaN`.  The parsed exact decimal value is rounded
to binary64 by `rnd64`. -/
def jsParseFloat (s : String) : Option ℚ :=
  let t1 := takeDigits s.toList
  if t1.2.head? == some '.' then
    let fp := (takeDigits t1.2.tail).1
    if t1.1.isEmpty && fp.isEmpty then none
    else some (rnd64 ((natOfDigits t1.1 : ℚ) + (natOfDigits fp : ℚ) / 10 ^ fp.length))
  else
    if t1.1.isEmpty then none
    else some (rnd64 (natOfDigits t1.1 : ℚ))

/-- JavaScript `parseInt(s, 10)`, modelled for nonnegative digit
strings; `none` models `NaN`. -/
def jsParseInt (s : String) : Option Nat :=
  let ds := (takeDigits s.toList).1
  if ds.isEmpty then none else some (natOfDigits ds)

/-! ## USDC conversion helpers (src services/payment.ts) -/

/-- `usdcToAtomic(usdc) = (parseFloat(usdc) * 1_000_000).toFixed(0)`:
parse to binary64, multiply by `1e6` with binary64 rounding, then round
to the nearest integer (ties toward the larger value, per `toFixed`). -/
def usdcToAtomic (usdc : String) : String :=
  match jsParseFloat usdc with
  | none => "NaN"
  | some q => intToStr (round (rnd64 (q * 1000000)))

/-- `atomicToUsdc(atomic) = (parseInt(atomic, 10) / 1_000_000).toFixed(6)`:
parse the integer, convert to binary64, divide by `1e6` with binary64
rounding, then render with six fractional digits (exact rounding of the
double's value, ties toward the larger, per `toFixed`). -/
def atomicToUsdc (atomic : String) : String :=
  match jsParseInt atomic with
  | none => "NaN"
  | some k =>
    let x := rnd64 ((rnd64 (k : ℚ)) / 1000000)
    formatFixed6 (round (x * 1000000)).toNat

/-! ## Payment record store (src services/payment.ts) -/

/-- One row of the `payments` table.  Timestamps are abstracted:
`settledAt` records only whether the settlement timestamp is set. -/
structure Payment where
  id : Nat
  paywallId : String
  payerWallet : String
  payerUserId : Option String
  amountUsdc : String
  txHash : Option String
  status : String
  settledAt : Bool
deriving DecidableEq

/-- The `payments` table plus the id sequence. -/
structure PaymentsStore where
  rows : List Payment
  nextId : Nat
deriving DecidableEq

/-- Parameters of `recordPayment`. -/
structure RecordPaymentParams where
  paywallId : String
  payerWallet : String
  amountUsdc : String
  payerUserId : Option String
deriving DecidableEq

/-- `recordPayment`: insert a new payment row with status `"pending"`,
lowercasing the payer wallet; returns the created row. -/
def recordPayment (st : PaymentsStore) (params : RecordPaymentParams) :
    Payment × PaymentsStore :=
  let created : Payment :=
    { id := st.nextId
      paywallId := params.paywallId
      payerWallet := strLower params.payerWallet
      amountUsdc := params.amountUsdc
      payerUserId := params.payerUserId
      txHash := none
      status := "pending"
      settledAt := false }
  (created, { rows := st.rows ++ [created], nextId := st.nextId + 1 })

/-- `settlePayment`: set status `"settled"`, the transaction hash and the
settlement timestamp on every row whose id matches; returns the updated
row if one exists. -/
def settlePayment (st : PaymentsStore) (paymentId : Nat) (txHash : String) :
    Option Payment × PaymentsStore :=
  let rows := st.rows.map fun p =>
    if p.id == paymentId then
      { p with status := "settled", txHash := some txHash, settledAt := true }
    else p
  ((rows.filter fun p => p.id == paymentId).head?, { st with rows := rows })

/-- `failPayment`: set status `"failed"` on every row whose id matches.
The `reason` argument is accepted but ignored, exactly as in the source
(`_reason` is unused and the `payments` schema has no reason column). -/
def failPayment (st : PaymentsStore) (paymentId : Nat) (_reason : Option String) :
    Option Payment × PaymentsStore :=
  let rows := st.rows.map fun p =>
    if p.id == paymentId then { p with status := "failed" } else p
  ((rows.filter fun p => p.id == paymentId).head?, { st with rows := rows })

/-- `getPaymentById`: first row with the given id, if any. -/
def getPaymentById (st : PaymentsStore) (paymentId : Nat) : Option Payment :=
  (st.rows.filter fun p => p.id == paymentId).head?

/-! ## Access ledger (src services/accessGrant.ts) -/

/-- One row of the `access_grants` table. -/
structure AccessGrant where
  id : Nat
  blockId : Nat
  payerWallet : String
  paymentId : Option Nat
deriving DecidableEq

/-- The `access_grants` table plus the id sequence. -/
structure GrantsStore where
  rows : List AccessGrant
  nextId : Nat
deriving DecidableEq

/-- `hasAccess(blockId, walletAddress)`: false for an empty address,
otherwise true iff a grant row exists for the block and the lowercased
wallet. -/
def hasAccess (st : GrantsStore) (blockId : Nat) (walletAddress : String) : Bool :=
  if walletAddress.isEmpty then false
  else
    (st.rows.filter fun g =>
      g.blockId == blockId && g.payerWallet == strLower walletAddress).head?.isSome

/-- `grantAccess(blockId, walletAddress, paymentId?)`: return the
existing grant for `(blockId, lowercased wallet)` unchanged if present,
otherwise insert and return a new grant row. -/
def grantAccess (st : GrantsStore) (blockId : Nat) (walletAddress : String)
    (paymentId : Option Nat) : AccessGrant × GrantsStore :=
  let normalizedWallet := strLower walletAddress
  match (st.rows.filter fun g =>
      g.blockId == blockId && g.payerWallet == normalizedWallet).head? with
  | some existing => (existing, st)
  | none =>
    let created : AccessGrant :=
      { id := st.nextId
        blockId := blockId
        payerWallet := normalizedWallet
        paymentId := paymentId }
    (created, { rows := st.rows ++ [created], nextId := st.nextId + 1 })

/-! ## Paywall registry (src services/paywall.ts) -/

/-- One row of the `paywalls` table (timestamps abstracted away). -/
structure PaywallRow where
  id : String
  blockId : Nat
  ownerUserId : Option String
  priceUsdc : String
  recipientWallet : String
  active : Bool
deriving DecidableEq

/-- Error codes of the `PaywallError` class. -/
inductive PaywallErrorCode where
  | INVALID_PRICE
  | INVALID_WALLET
  | NO_WALLET
  | ALREADY_EXISTS
  | NOT_FOUND
  | FORBIDDEN
  | NOT_OWNER
deriving DecidableEq

/-- The `PaywallError` class: a message plus a structured code. -/
structure PaywallError where
  message : String
  code : PaywallErrorCode
deriving DecidableEq

/-- `isValidEthereumAddress`: the regex `^0x[a-fA-F0-9]{40}$`. -/
def isValidEthereumAddress (address : String) : Bool :=
  let cs := address.toList
  cs.length == 42 && cs.take 2 == ['0', 'x'] &&
    (cs.drop 2).all fun c =>
      c.isDigit || ('a' ≤ c && c ≤ 'f') || ('A' ≤ c && c ≤ 'F')

/-- `getPaywallByBlockId`: first paywall row for the block (active or
not), if any.  The owner join only adds display fields and is omitted. -/
def getPaywallByBlockId (pws : List PaywallRow) (blockId : Nat) : Option PaywallRow :=
  (pws.filter fun p => p.blockId == blockId).head?

/-- JavaScript `a < b` on two `parseFloat` results, where `none` is
`NaN`: any comparison with `NaN` is false. -/
def jsLtFloat (a b : Option ℚ) : Bool :=
  match a, b with
  | some x, some y => decide (x < y)
  | _, _ => false

/-- The patch argument of `updatePaywall`. -/
structure UpdatePaywallParams where
  priceUsdc : Option String
  recipientWallet : Option String
  active : Option Bool
deriving DecidableEq

/-- Object spread `{...paywall, ...updates}`: fields present in the
patch overwrite the row. -/
def applyUpdates (p : PaywallRow) (updates : UpdatePaywallParams) : PaywallRow :=
  { p with
    priceUsdc := updates.priceUsdc.getD p.priceUsdc
    recipientWallet := updates.recipientWallet.getD p.recipientWallet
    active := updates.active.getD p.active }

/-- `updatePaywall(blockId, ownerUserId, updates)`: not-found and
ownership checks, then field validation (`parseFloat` comparison against
the `"0.01"` minimum, address regex), then the row update.  The second
component is the resulting table; every error path leaves it unchanged
(the source throws before issuing the UPDATE). -/
def updatePaywall (pws : List PaywallRow) (blockId : Nat) (ownerUserId : String)
    (updates : UpdatePaywallParams) :
    Except PaywallError (Option PaywallRow) × List PaywallRow :=
  match getPaywallByBlockId pws blockId with
  | none => (.error ⟨"Paywall not found", .NOT_FOUND⟩, pws)
  | some existing =>
    if existing.ownerUserId != some ownerUserId then
      (.error ⟨"You do not own this paywall", .FORBIDDEN⟩, pws)
    else if (match updates.priceUsdc with
        | some priceStr => jsLtFloat (jsParseFloat priceStr) (jsParseFloat "0.01")
        | none => false) then
      (.error ⟨"Minimum price is 0.01 USDC", .INVALID_PRICE⟩, pws)
    else if (match updates.recipientWallet with
        | some w => !isValidEthereumAddress w
        | none => false) then
      (.error ⟨"Invalid recipient wallet address", .INVALID_WALLET⟩, pws)
    else
      let rows := pws.map fun p =>
        if p.blockId == blockId then applyUpdates p updates else p
      (.ok (rows.filter fun p => p.blockId == blockId).head?, rows)

/-- `deletePaywall(blockId, ownerUserId)`: not-found and ownership
checks, then hard delete.  Error paths leave the table unchanged. -/
def deletePaywall (pws : List PaywallRow) (blockId : Nat) (ownerUserId : String) :
    Except PaywallError Unit × List PaywallRow :=
  match getPaywallByBlockId pws blockId with
  | none => (.error ⟨"Paywall not found", .NOT_FOUND⟩, pws)
  | some existing =>
    if existing.ownerUserId != some ownerUserId then
      (.error ⟨"You do not own this paywall", .FORBIDDEN⟩, pws)
    else
      (.ok (), pws.filter fun p => !(p.blockId == blockId))

/-- Assoc-list model of a JavaScript `Map.set`. -/
def mapSet (m : List (Nat × String × Bool)) (k : Nat) (v : String × Bool) :
    List (Nat × String × Bool) :=
  if m.any fun e => e.1 == k then
    m.map fun e => if e.1 == k then (k, v) else e
  else m ++ [(k, v)]

/-- `getPaywallsForBlocks(blockIds)`: the batch lookup.  Returns the
id-to-`{price, active}` map together with the number of database queries
issued.  As in the source, a first query selects all active paywalls and
discards the result, and the map is then built by one single-row query
per requested id. -/
def getPaywallsForBlocks (pws : List PaywallRow) (blockIds : List Nat) :
    List (Nat × String × Bool) × Nat :=
  if blockIds.isEmpty then ([], 0)
  else
    let _discarded := pws.filter fun p => p.active
    blockIds.foldl
      (fun acc id =>
        let paywall := (pws.filter fun p => p.blockId == id && p.active).head?
        match paywall with
        | some p => (mapSet acc.1 id (p.priceUsdc, p.active), acc.2 + 1)
        | none => (acc.1, acc.2 + 1))
      ([], 1)

/-- The composite read `getBlockAccessStatus` returns. -/
structure BlockAccessStatus where
  blockId : Nat
  isPaywalled : Bool
  hasAccess : Bool
  priceUsdc : Option String
  recipientWallet : Option String
deriving DecidableEq

/-- `getBlockAccessStatus(blockId, walletAddress?)`: query the active
paywall for the block; absent means free content (`isPaywalled = false`,
`hasAccess = true`); otherwise check the access ledger, treating a
missing or empty wallet as no access. -/
def getBlockAccessStatus (pws : List PaywallRow) (gst : GrantsStore)
    (blockId : Nat) (walletAddress : Option String) : BlockAccessStatus :=
  match (pws.filter fun p => p.blockId == blockId && p.active).head? with
  | none =>
    { blockId := blockId
      isPaywalled := false
      hasAccess := true
      priceUsdc := none
      recipientWallet := none }
  | some paywall =>
    let walletHasAccess :=
      match walletAddress with
      | some w => if w.isEmpty then false else hasAccess gst blockId w
      | none => false
    { blockId := blockId
      isPaywalled := true
      hasAccess := walletHasAccess
      priceUsdc := some paywall.priceUsdc
      recipientWallet := some paywall.recipientWallet }

/-! ## Settlement coordinator (src middleware x402, `processPayment`) -/

/-- Result of the oracle's `verifyPayment`. -/
structure VerifyResult where
  isValid : Bool
  invalidReason : Option String
  payer : Option String
deriving DecidableEq

/-- Result of the oracle's `settlePayment`. -/
structure SettleResult where
  success : Bool
  errorReason : Option String
  transaction : String
  payer : Option String
deriving DecidableEq

/-- The external settlement oracle, modelled as the outcomes of its two
calls; `Except.error msg` models the call throwing an error with that
message. -/
structure Oracle where
  verifyOutcome : Except String VerifyResult
  settleOutcome : Except String SettleResult

/-- The accepted payment requirements inside a decoded payment proof. -/
structure AcceptedRequirements where
  amount : String
  payTo : String
deriving DecidableEq

/-- A decoded `X-Payment` payload: the accepted requirements and the
optional payer field of the inner payload. -/
structure PaymentPayload where
  accepted : AcceptedRequirements
  payloadPayer : Option String
deriving DecidableEq

/-- The `PaymentResult` returned by `processPayment`. -/
structure PaymentResult where
  success : Bool
  paymentId : Option Nat
  txHash : Option String
  payer : Option String
  error : Option String
deriving DecidableEq

/-- The two stores the coordinator drives. -/
structure SysState where
  payments : PaymentsStore
  grants : GrantsStore
deriving DecidableEq

/-- JavaScript `x || y` on an optional string and a fallback: an absent
or empty (falsy) string falls through. -/
def jsOr (x : Option String) (y : String) : String :=
  match x with
  | some s => if s.isEmpty then y else s
  | none => y

/-- `processPayment(req, paywall, blockId, walletAddress?)`.  The decoded
`X-Payment` header is `payload` (`none` models a header that fails to
decode).  Mirrors the source: requirement checks before any record is
created, then `recordPayment`, then oracle verify and settle inside a
try/catch whose every failure path calls `failPayment`, and on success
`settlePayment` followed by `grantAccess`. -/
def processPayment (oracle : Oracle) (paywall : PaywallRow) (blockId : Nat)
    (walletAddress : Option String) (payload : Option PaymentPayload)
    (st : SysState) : PaymentResult × SysState :=
  match payload with
  | none =>
    ({ success := false, paymentId := none, txHash := none, payer := none
       error := some "Invalid payment header format" }, st)
  | some paymentPayload =>
    let acceptedRequirements := paymentPayload.accepted
    let expectedAmount := usdcToAtomic paywall.priceUsdc
    if acceptedRequirements.amount != expectedAmount then
      ({ success := false, paymentId := none, txHash := none, payer := none
         error := some ("Payment amount mismatch. Expected " ++ expectedAmount
           ++ ", got " ++ acceptedRequirements.amount) }, st)
    else if strLower acceptedRequirements.payTo != strLower paywall.recipientWallet then
      ({ success := false, paymentId := none, txHash := none, payer := none
         error := some "Payment recipient mismatch" }, st)
    else
      let payerWallet := jsOr walletAddress (jsOr paymentPayload.payloadPayer "unknown")
      let rec0 := recordPayment st.payments
        { paywallId := paywall.id
          payerWallet := payerWallet
          amountUsdc := paywall.priceUsdc
          payerUserId := none }
      let payment := rec0.1
      match oracle.verifyOutcome with
      | .error e =>
        ({ success := false, paymentId := none, txHash := none, payer := none
           error := some e },
         { payments := (failPayment rec0.2 payment.id (some e)).2, grants := st.grants })
      | .ok verifyResult =>
        if !verifyResult.isValid then
          ({ success := false, paymentId := none, txHash := none, payer := none
             error := some (jsOr verifyResult.invalidReason "Payment verification failed") },
           { payments := (failPayment rec0.2 payment.id verifyResult.invalidReason).2
             grants := st.grants })
        else
          match oracle.settleOutcome with
          | .error e =>
            ({ success := false, paymentId := none, txHash := none, payer := none
               error := some e },
             { payments := (failPayment rec0.2 payment.id (some e)).2, grants := st.grants })
          | .ok settleResult =>
            if !settleResult.success then
              ({ success := false, paymentId := none, txHash := none, payer := none
                 error := some (jsOr settleResult.errorReason "Payment settlement failed") },
               { payments := (failPayment rec0.2 payment.id settleResult.errorReason).2
                 grants := st.grants })
            else
              let actualPayer := jsOr settleResult.payer
                (jsOr verifyResult.payer payerWallet)
              ({ success := true, paymentId := some payment.id
                 txHash := some settleResult.transaction
                 payer := some actualPayer, error := none },
               { payments := (settlePayment rec0.2 payment.id settleResult.transaction).2
                 grants := (grantAccess st.grants blockId actualPayer (some payment.id)).2 })

/-! ## Properties of the binary64 rounding model -/

theorem abs_roundTiesEven_sub_le (x : ℚ) : |(roundTiesEven x : ℚ) - x| ≤ 1 / 2 := by
  rw [roundTiesEven]
  by_cases htie : x - (⌊x⌋ : ℚ) = 1 / 2
  · rw [if_pos htie]
    by_cases hev : ⌊x⌋ % 2 = 0
    · rw [if_pos hev]
      have h1 : (⌊x⌋ : ℚ) - x = -(1 / 2) := by linarith
      rw [h1, abs_neg, abs_of_nonneg (by norm_num : (0 : ℚ) ≤ 1 / 2)]
    · rw [if_neg hev]
      have h1 : ((⌊x⌋ + 1 : ℤ) : ℚ) - x = 1 / 2 := by push_cast; linarith
      rw [h1, abs_of_nonneg (by norm_num : (0 : ℚ) ≤ 1 / 2)]
  · rw [if_neg htie]
    calc |(round x : ℚ) - x| = |x - (round x : ℚ)| := abs_sub_comm _ _
    _ ≤ 1 / 2 := abs_sub_round x

theorem roundTiesEven_intCast (z : ℤ) : roundTiesEven (z : ℚ) = z := by
  rw [roundTiesEven]
  have hfl : ⌊(z : ℚ)⌋ = z := Int.floor_intCast z
  rw [hfl]
  have h1 : (z : ℚ) - (z : ℚ) = 0 := by ring
  rw [h1, if_neg (by norm_num)]
  exact round_intCast z

theorem expo2_bounds (q : ℚ) (hq : 0 < q) :
    (2 : ℚ) ^ expo2 q ≤ q ∧ q < (2 : ℚ) ^ (expo2 q + 1) := by
  have hnum : (0 : ℤ) < q.num := Rat.num_pos.mpr hq
  have hn0 : q.num.natAbs ≠ 0 := Int.natAbs_ne_zero.mpr hnum.ne'
  have hd0 : q.den ≠ 0 := q.den_nz
  rw [expo2]
  set L : ℤ := (Nat.log2 q.num.natAbs : ℤ) with hL
  set M : ℤ := (Nat.log2 q.den : ℤ) with hM
  have hA : (2 : ℚ) ^ L ≤ (q.num.natAbs : ℚ) := by
    rw [hL, zpow_natCast]
    exact_mod_cast (Nat.le_log2 hn0).mp le_rfl
  have hB : (q.num.natAbs : ℚ) < (2 : ℚ) ^ (L + 1) := by
    have h2 : L + 1 = ((Nat.log2 q.num.natAbs + 1 : ℕ) : ℤ) := by rw [hL]; push_cast; ring
    rw [h2, zpow_natCast]
    exact_mod_cast (Nat.log2_lt hn0).mp (Nat.lt_succ_self _)
  have hC : (2 : ℚ) ^ M ≤ (q.den : ℚ) := by
    rw [hM, zpow_natCast]
    exact_mod_cast (Nat.le_log2 hd0).mp le_rfl
  have hD : (q.den : ℚ) < (2 : ℚ) ^ (M + 1) := by
    have h2 : M + 1 = ((Nat.log2 q.den + 1 : ℕ) : ℤ) := by rw [hM]; push_cast; ring
    rw [h2, zpow_natCast]
    exact_mod_cast (Nat.log2_lt hd0).mp (Nat.lt_succ_self _)
  have hnpos : (0 : ℚ) < (q.num.natAbs : ℚ) := by
    have h2 : 0 < q.num.natAbs := Nat.pos_of_ne_zero hn0
    exact_mod_cast h2
  have hdpos : (0 : ℚ) < (q.den : ℚ) := by
    have h2 : 0 < q.den := Nat.pos_of_ne_zero hd0
    exact_mod_cast h2
  have hqval : q = (q.num.natAbs : ℚ) / (q.den : ℚ) := by
    have h1 : ((q.num.natAbs : ℤ) : ℚ) = (q.num : ℚ) := by
      rw [Int.natAbs_of_nonneg hnum.le]
    have h2 : (q.num.natAbs : ℚ) = (q.num : ℚ) := by
      rw [Int.cast_natAbs, abs_of_nonneg hnum.le]
    rw [h2, Rat.num_div_den q]
  have hupper : q < (2 : ℚ) ^ (L - M + 1) := by
    have step1 : (q.num.natAbs : ℚ) / (q.den : ℚ) < (2 : ℚ) ^ (L + 1) / (q.den : ℚ) :=
      div_lt_div_of_pos_right hB hdpos
    have step2 : (2 : ℚ) ^ (L + 1) / (q.den : ℚ) ≤ (2 : ℚ) ^ (L + 1) / (2 : ℚ) ^ M :=
      div_le_div_of_nonneg_left (by positivity) (by positivity) hC
    have step3 : (2 : ℚ) ^ (L + 1) / (2 : ℚ) ^ M = (2 : ℚ) ^ (L - M + 1) := by
      rw [← zpow_sub₀ (two_ne_zero)]
      ring_nf
    rw [hqval]
    calc (q.num.natAbs : ℚ) / (q.den : ℚ) < (2 : ℚ) ^ (L + 1) / (q.den : ℚ) := step1
      _ ≤ (2 : ℚ) ^ (L + 1) / (2 : ℚ) ^ M := step2
      _ = (2 : ℚ) ^ (L - M + 1) := step3
  have hlower : (2 : ℚ) ^ (L - M - 1) < q := by
    have step1 : (2 : ℚ) ^ (L - M - 1) = (2 : ℚ) ^ L / (2 : ℚ) ^ (M + 1) := by
      rw [← zpow_sub₀ (two_ne_zero)]
      ring_nf
    have step2 : (2 : ℚ) ^ L / (2 : ℚ) ^ (M + 1) ≤ (q.num.natAbs : ℚ) / (2 : ℚ) ^ (M + 1) :=
      (div_le_div_iff_of_pos_right (by positivity)).mpr hA
    have step3 : (q.num.natAbs : ℚ) / (2 : ℚ) ^ (M + 1) < (q.num.natAbs : ℚ) / (q.den : ℚ) :=
      div_lt_div_of_pos_left hnpos hdpos hD
    rw [hqval]
    calc (2 : ℚ) ^ (L - M - 1) = (2 : ℚ) ^ L / (2 : ℚ) ^ (M + 1) := step1
      _ ≤ (q.num.natAbs : ℚ) / (2 : ℚ) ^ (M + 1) := step2
      _ < (q.num.natAbs : ℚ) / (q.den : ℚ) := step3
  split_ifs with h
  · refine ⟨h, ?_⟩
    exact hupper
  · refine ⟨le_of_lt ?_, ?_⟩
    · exact hlower
    · have h2 : q < (2 : ℚ) ^ (L - M) := not_le.mp h
      have h3 : L - M - 1 + 1 = L - M := by ring
      rw [h3]
      exact h2

theorem rnd64_err (q : ℚ) (hq : 0 < q) : |rnd64 q - q| ≤ q / 2 ^ 53 := by
  rw [rnd64, if_neg (not_le.mpr hq)]
  set e : ℤ := expo2 q with he
  set x : ℚ := q * (2 : ℚ) ^ ((52 : ℤ) - e) with hx
  have hsplit : x * (2 : ℚ) ^ (e - (52 : ℤ)) = q := by
    rw [hx, mul_assoc, ← zpow_add₀ (two_ne_zero : (2 : ℚ) ≠ 0)]
    have h0 : (52 : ℤ) - e + (e - 52) = 0 := by ring
    rw [h0, zpow_zero, mul_one]
  have hfactor : (roundTiesEven x : ℚ) * (2 : ℚ) ^ (e - (52 : ℤ)) - q
      = ((roundTiesEven x : ℚ) - x) * (2 : ℚ) ^ (e - (52 : ℤ)) := by
    rw [sub_mul, hsplit]
  have hzpos : (0 : ℚ) < (2 : ℚ) ^ (e - (52 : ℤ)) := by positivity
  have hb : |(roundTiesEven x : ℚ) - x| * (2 : ℚ) ^ (e - (52 : ℤ))
      ≤ (1 / 2) * (2 : ℚ) ^ (e - (52 : ℤ)) := by
    apply mul_le_mul_of_nonneg_right (abs_roundTiesEven_sub_le x) hzpos.le
  have hval : (1 / 2 : ℚ) * (2 : ℚ) ^ (e - (52 : ℤ)) = (2 : ℚ) ^ e / 2 ^ 53 := by
    rw [zpow_sub₀ (two_ne_zero : (2 : ℚ) ≠ 0)]
    have h52 : (2 : ℚ) ^ (52 : ℤ) = (2 : ℚ) ^ (52 : ℕ) := by norm_num
    rw [h52]
    have h53 : (2 : ℚ) ^ (53 : ℕ) = (2 : ℚ) ^ (52 : ℕ) * 2 := by ring
    rw [h53]
    field_simp
    left
    ring
  calc |(roundTiesEven x : ℚ) * (2 : ℚ) ^ (e - (52 : ℤ)) - q|
      = |(roundTiesEven x : ℚ) - x| * (2 : ℚ) ^ (e - (52 : ℤ)) := by
        rw [hfactor, abs_mul, abs_of_pos hzpos]
    _ ≤ (1 / 2) * (2 : ℚ) ^ (e - (52 : ℤ)) := hb
    _ = (2 : ℚ) ^ e / 2 ^ 53 := hval
    _ ≤ q / 2 ^ 53 := by
        apply (div_le_div_iff_of_pos_right (by positivity)).mpr
        exact (expo2_bounds q hq).1

theorem rnd64_pos (q : ℚ) (hq : 0 < q) : 0 < rnd64 q := by
  have herr := rnd64_err q hq
  have hlow : q - q / 2 ^ 53 ≤ rnd64 q := by
    have h1 := (abs_le.mp herr).1
    linarith
  have hsmall : q / 2 ^ 53 < q := div_lt_self hq (by norm_num)
  linarith

theorem rnd64_natCast (k : ℕ) (h0 : 0 < k) (hk : k < 2 ^ 53) : rnd64 (k : ℚ) = k := by
  have hq : (0 : ℚ) < (k : ℚ) := by exact_mod_cast h0
  rw [rnd64, if_neg (not_le.mpr hq)]
  set e : ℤ := expo2 (k : ℚ) with he
  have hbounds := expo2_bounds (k : ℚ) hq
  have he_le : e ≤ 52 := by
    by_contra hcon
    push_neg at hcon
    have h53 : (53 : ℤ) ≤ e := hcon
    have hmono : (2 : ℚ) ^ (53 : ℤ) ≤ (2 : ℚ) ^ e := by
      apply zpow_le_zpow_right₀ (by norm_num) h53
    have hk53 : ((2 : ℚ) ^ (53 : ℤ)) ≤ (k : ℚ) := le_trans hmono hbounds.1
    have hklt : (k : ℚ) < (2 : ℚ) ^ (53 : ℕ) := by exact_mod_cast hk
    have : (2 : ℚ) ^ (53 : ℤ) = (2 : ℚ) ^ (53 : ℕ) := by norm_num
    rw [this] at hk53
    linarith
  have he_nonneg : 0 ≤ e + 1 := by
    by_contra hcon
    push_neg at hcon
    have h1 : e + 1 ≤ 0 := le_of_lt hcon
    have hmono : (2 : ℚ) ^ (e + 1) ≤ (2 : ℚ) ^ (0 : ℤ) := by
      apply zpow_le_zpow_right₀ (by norm_num) h1
    rw [zpow_zero] at hmono
    have hk1 : (1 : ℚ) ≤ (k : ℚ) := by exact_mod_cast h0
    linarith [hbounds.2]
  set t : ℕ := ((52 : ℤ) - e).toNat with ht
  have htz : ((t : ℤ)) = 52 - e := by
    rw [ht, Int.toNat_of_nonneg (by omega)]
  have hxnat : (k : ℚ) * (2 : ℚ) ^ ((52 : ℤ) - e) = ((k * 2 ^ t : ℕ) : ℚ) := by
    rw [← htz, zpow_natCast]
    push_cast
    ring
  rw [hxnat]
  have hcast : ((k * 2 ^ t : ℕ) : ℚ) = (((k * 2 ^ t : ℕ) : ℤ) : ℚ) := by push_cast; ring
  rw [hcast, roundTiesEven_intCast]
  rw [← hcast]
  push_cast
  rw [mul_assoc, ← zpow_natCast (2 : ℚ) t, ← zpow_add₀ (two_ne_zero : (2 : ℚ) ≠ 0)]
  rw [htz]
  have h0' : (52 : ℤ) - e + (e - 52) = 0 := by ring
  rw [h0', zpow_zero, mul_one]

theorem round_int_of_abs_lt (x : ℚ) (m : ℤ) (h : |x - (m : ℚ)| < 1 / 2) : round x = m := by
  rw [round_eq]
  apply Int.floor_eq_iff.mpr
  have h1 := (abs_lt.mp h).1
  have h2 := (abs_lt.mp h).2
  constructor
  · linarith
  · linarith

/-! ## Properties of decimal digit strings and parsing -/

theorem natDigitsAux_eq_digits :
    ∀ (fuel n : Nat), n ≤ fuel → natDigitsAux fuel n = Nat.digits 10 n := by
  intro fuel
  induction fuel with
  | zero =>
    intro n hn
    have h0 : n = 0 := Nat.le_zero.mp hn
    subst h0
    rw [show natDigitsAux 0 0 = [] from rfl, Nat.digits_zero]
  | succ fuel ih =>
    intro n hn
    match n with
    | 0 => rw [show natDigitsAux (fuel + 1) 0 = [] from rfl, Nat.digits_zero]
    | m + 1 =>
      rw [natDigitsAux]
      have hdiv : (m + 1) / 10 ≤ fuel := by
        have h1 : (m + 1) / 10 < m + 1 := Nat.div_lt_self (Nat.succ_pos m) (by norm_num)
        omega
      rw [ih _ hdiv]
      rw [Nat.digits_def' (by norm_num : (1 : ℕ) < 10) (Nat.succ_pos m)]

theorem natDigitsLE_eq_digits (n : Nat) : natDigitsLE n = Nat.digits 10 n :=
  natDigitsAux_eq_digits n n le_rfl

theorem foldl_reverse_ofDigits (L : List ℕ) (a : ℕ) :
    List.foldl (fun x d => x * 10 + d) a L.reverse
      = a * 10 ^ L.length + Nat.ofDigits 10 L := by
  induction L generalizing a with
  | nil => simp [Nat.ofDigits_nil]
  | cons d L ih =>
    rw [List.reverse_cons, List.foldl_append, ih a]
    simp only [List.foldl_cons, List.foldl_nil, Nat.ofDigits_cons, List.length_cons]
    ring

theorem natOfDigits_natDigitsBE (n : Nat) : natOfDigits (natDigitsBE n) = n := by
  rw [natDigitsBE]
  by_cases h : n = 0
  · subst h
    rfl
  · rw [if_neg h, natDigitsLE_eq_digits, natOfDigits, foldl_reverse_ofDigits]
    simp [Nat.ofDigits_digits]

theorem natDigitsBE_lt (n : Nat) : ∀ d ∈ natDigitsBE n, d < 10 := by
  rw [natDigitsBE]
  by_cases h : n = 0
  · subst h
    intro d hd
    simp at hd
    omega
  · rw [if_neg h, natDigitsLE_eq_digits]
    intro d hd
    rw [List.mem_reverse] at hd
    exact Nat.digits_lt_base (by norm_num) hd

theorem natDigitsBE_ne_nil (n : Nat) : natDigitsBE n ≠ [] := by
  rw [natDigitsBE]
  by_cases h : n = 0
  · subst h
    simp
  · rw [if_neg h, ← List.length_pos, List.length_reverse, natDigitsLE_eq_digits]
    rw [List.length_pos]
    exact Nat.digits_ne_nil_iff_ne_zero.mpr h

theorem natDigitsBE_length_le (n k : Nat) (hk : 1 ≤ k) (hn : n < 10 ^ k) :
    (natDigitsBE n).length ≤ k := by
  rw [natDigitsBE]
  by_cases h : n = 0
  · subst h
    simpa using hk
  · rw [if_neg h, List.length_reverse, natDigitsLE_eq_digits]
    rw [Nat.digits_len 10 n (by norm_num) h]
    have : Nat.log 10 n < k := Nat.log_lt_of_lt_pow h hn
    omega

theorem digitChar_isDigit (d : Nat) (hd : d < 10) : (Nat.digitChar d).isDigit = true := by
  interval_cases d <;> decide

theorem digitChar_toNat (d : Nat) (hd : d < 10) : (Nat.digitChar d).toNat - 48 = d := by
  interval_cases d <;> decide

theorem takeDigits_nondigit (r : List Char)
    (hr : ∀ c, r.head? = some c → c.isDigit = false) : takeDigits r = ([], r) := by
  match r with
  | [] => rfl
  | c :: cs =>
    rw [takeDigits]
    rw [hr c rfl]
    simp

theorem takeDigits_digits_append (ds : List Nat) (r : List Char)
    (hds : ∀ d ∈ ds, d < 10)
    (hr : ∀ c, r.head? = some c → c.isDigit = false) :
    takeDigits (ds.map Nat.digitChar ++ r) = (ds, r) := by
  induction ds with
  | nil =>
    simpa using takeDigits_nondigit r hr
  | cons d ds ih =>
    have hd : d < 10 := hds d (List.mem_cons_self d ds)
    rw [List.map_cons, List.cons_append, takeDigits]
    rw [digitChar_isDigit d hd]
    simp only [if_true]
    rw [ih (fun x hx => hds x (List.mem_cons_of_mem d hx))]
    rw [digitChar_toNat d hd]

theorem natOfDigits_replicate_zero (k : Nat) (ds : List Nat) :
    natOfDigits (List.replicate k 0 ++ ds) = natOfDigits ds := by
  rw [natOfDigits, natOfDigits, List.foldl_append]
  congr 1
  induction k with
  | zero => rfl
  | succ k ih => simpa using ih

theorem padDigits_length (k : Nat) (ds : List Nat) (h : ds.length ≤ k) :
    (padDigits k ds).length = k := by
  rw [padDigits, List.length_append, List.length_replicate]
  omega

theorem padDigits_lt (k : Nat) (ds : List Nat) (h : ∀ d ∈ ds, d < 10) :
    ∀ d ∈ padDigits k ds, d < 10 := by
  intro d hd
  rw [padDigits, List.mem_append] at hd
  rcases hd with h1 | h2
  · have := List.eq_of_mem_replicate h1
    omega
  · exact h d h2

theorem natOfDigits_padDigits (k : Nat) (ds : List Nat) :
    natOfDigits (padDigits k ds) = natOfDigits ds :=
  natOfDigits_replicate_zero _ _

theorem jsParseFloat_formatFixed6 (m : ℕ) :
    jsParseFloat (formatFixed6 m) = some (rnd64 ((m : ℚ) / 1000000)) := by
  have hfmt : (formatFixed6 m).toList
      = (natDigitsBE (m / 1000000)).map Nat.digitChar
        ++ '.' :: (padDigits 6 (natDigitsBE (m % 1000000))).map Nat.digitChar := rfl
  have hip_lt := natDigitsBE_lt (m / 1000000)
  have hfrac_lt : ∀ d ∈ padDigits 6 (natDigitsBE (m % 1000000)), d < 10 :=
    padDigits_lt _ _ (natDigitsBE_lt _)
  have htake : takeDigits ((formatFixed6 m).toList)
      = (natDigitsBE (m / 1000000),
         '.' :: (padDigits 6 (natDigitsBE (m % 1000000))).map Nat.digitChar) := by
    rw [hfmt]
    apply takeDigits_digits_append _ _ hip_lt
    intro c hc
    simp only [List.head?_cons, Option.some.injEq] at hc
    subst hc
    decide
  have htake2 : takeDigits ((padDigits 6 (natDigitsBE (m % 1000000))).map Nat.digitChar)
      = (padDigits 6 (natDigitsBE (m % 1000000)), []) := by
    have h := takeDigits_digits_append (padDigits 6 (natDigitsBE (m % 1000000))) []
      hfrac_lt (by intro c hc; simp at hc)
    simpa using h
  have hip_ne : (natDigitsBE (m / 1000000)).isEmpty = false := by
    rw [List.isEmpty_eq_false]
    exact natDigitsBE_ne_nil _
  have hlen : (padDigits 6 (natDigitsBE (m % 1000000))).length = 6 := by
    apply padDigits_length
    apply natDigitsBE_length_le _ 6 (by norm_num)
    have := Nat.mod_lt m (show 0 < 1000000 by norm_num)
    calc m % 1000000 < 1000000 := this
      _ ≤ 10 ^ 6 := by norm_num
  rw [jsParseFloat]
  simp only [htake, List.head?_cons, List.tail_cons, htake2, hip_ne, Bool.false_and,
    beq_self_eq_true, if_true, if_neg (by simp : ¬false = true)]
  congr 1
  congr 1
  rw [natOfDigits_natDigitsBE, natOfDigits_padDigits, natOfDigits_natDigitsBE, hlen]
  have hmod : ((m % 1000000 : ℕ) : ℚ) < 10 ^ 6 := by
    have h1 := Nat.mod_lt m (show 0 < 1000000 by norm_num)
    have h2 : ((m % 1000000 : ℕ) : ℚ) < ((1000000 : ℕ) : ℚ) := by exact_mod_cast h1
    norm_num at h2 ⊢
    exact h2
  have hdm : (m / 1000000) * 1000000 + m % 1000000 = m := Nat.div_add_mod' m 1000000
  rw [eq_div_iff (by norm_num : (1000000 : ℚ) ≠ 0)]
  rw [add_mul, div_mul_eq_mul_div]
  norm_num
  exact_mod_cast hdm

theorem jsParseInt_natStr (m : ℕ) : jsParseInt (natStr m) = some m := by
  have htake : takeDigits ((natStr m).toList) = (natDigitsBE m, []) := by
    have h := takeDigits_digits_append (natDigitsBE m) [] (natDigitsBE_lt m)
      (by intro c hc; simp at hc)
    simpa using h
  have hne : (natDigitsBE m).isEmpty = false := by
    rw [List.isEmpty_eq_false]
    exact natDigitsBE_ne_nil _
  rw [jsParseInt]
  simp only [htake, hne, if_neg (by simp : ¬false = true)]
  rw [natOfDigits_natDigitsBE]

theorem usdcToAtomic_formatFixed6 (m : ℕ) (h0 : 0 < m) (hm : m < 10 ^ 10) :
    usdcToAtomic (formatFixed6 m) = natStr m := by
  unfold usdcToAtomic
  rw [jsParseFloat_formatFixed6]
  show intToStr (round (rnd64 (rnd64 ((m : ℚ) / 1000000) * 1000000))) = natStr m
  have hM0 : (0 : ℚ) < (m : ℚ) := by exact_mod_cast h0
  have hmN : m < 10000000000 := by
    rw [show (10 : ℕ) ^ 10 = 10000000000 from by norm_num] at hm
    exact hm
  have hMlt : (m : ℚ) < 10000000000 := by exact_mod_cast hmN
  have hq0 : (0 : ℚ) < (m : ℚ) / 1000000 := by positivity
  have h1 := rnd64_err ((m : ℚ) / 1000000) hq0
  have hq1 : (0 : ℚ) < rnd64 ((m : ℚ) / 1000000) := rnd64_pos _ hq0
  set q1 : ℚ := rnd64 ((m : ℚ) / 1000000) with hq1def
  have hy : |q1 * 1000000 - (m : ℚ)| ≤ (m : ℚ) / 2 ^ 53 := by
    have hexp : (q1 - (m : ℚ) / 1000000) * 1000000 = q1 * 1000000 - (m : ℚ) := by
      field_simp
    calc |q1 * 1000000 - (m : ℚ)| = |q1 - (m : ℚ) / 1000000| * 1000000 := by
          rw [← hexp, abs_mul]
          norm_num
      _ ≤ ((m : ℚ) / 1000000 / 2 ^ 53) * 1000000 := by
          apply mul_le_mul_of_nonneg_right h1 (by norm_num)
      _ = (m : ℚ) / 2 ^ 53 := by field_simp; ring
  have hypos : (0 : ℚ) < q1 * 1000000 := by positivity
  have h2 := rnd64_err (q1 * 1000000) hypos
  set q2 : ℚ := rnd64 (q1 * 1000000) with hq2def
  have hc : (2 : ℚ) ^ 53 = 9007199254740992 := by norm_num
  rw [hc] at h2 hy
  have htri : |q2 - (m : ℚ)| ≤ |q2 - q1 * 1000000| + |q1 * 1000000 - (m : ℚ)| :=
    abs_sub_le q2 (q1 * 1000000) (m : ℚ)
  have hy1 : q1 * 1000000 ≤ (m : ℚ) + (m : ℚ) / 9007199254740992 := by
    have := (abs_le.mp hy).2
    linarith
  have habs : |q2 - ((m : ℤ) : ℚ)| < 1 / 2 := by
    have hcast : ((m : ℤ) : ℚ) = (m : ℚ) := by push_cast; ring
    rw [hcast]
    have hb1 : |q2 - q1 * 1000000| ≤ (q1 * 1000000) / 9007199254740992 := h2
    have hb2 : (q1 * 1000000) / 9007199254740992
        ≤ ((m : ℚ) + (m : ℚ) / 9007199254740992) / 9007199254740992 := by
      apply (div_le_div_iff_of_pos_right (by norm_num)).mpr hy1
    linarith
  have hround : round q2 = (m : ℤ) := round_int_of_abs_lt q2 (m : ℤ) habs
  rw [hround, intToStr]
  rw [if_neg (not_lt.mpr (Int.natCast_nonneg m))]
  simp

theorem atomicToUsdc_natStr (m : ℕ) (h0 : 0 < m) (hm : m < 10 ^ 10) :
    atomicToUsdc (natStr m) = formatFixed6 m := by
  unfold atomicToUsdc
  rw [jsParseInt_natStr]
  show formatFixed6 (round (rnd64 (rnd64 (m : ℚ) / 1000000) * 1000000)).toNat = formatFixed6 m
  have hlt53 : m < 2 ^ 53 := lt_trans hm (by norm_num)
  rw [rnd64_natCast m h0 hlt53]
  have hM0 : (0 : ℚ) < (m : ℚ) := by exact_mod_cast h0
  have hmN : m < 10000000000 := by
    rw [show (10 : ℕ) ^ 10 = 10000000000 from by norm_num] at hm
    exact hm
  have hMlt : (m : ℚ) < 10000000000 := by exact_mod_cast hmN
  have hq0 : (0 : ℚ) < (m : ℚ) / 1000000 := by positivity
  have h1 := rnd64_err ((m : ℚ) / 1000000) hq0
  set x : ℚ := rnd64 ((m : ℚ) / 1000000) with hxdef
  have hc : (2 : ℚ) ^ 53 = 9007199254740992 := by norm_num
  rw [hc] at h1
  have hy : |x * 1000000 - (m : ℚ)| ≤ (m : ℚ) / 9007199254740992 := by
    have hexp : (x - (m : ℚ) / 1000000) * 1000000 = x * 1000000 - (m : ℚ) := by
      field_simp
    calc |x * 1000000 - (m : ℚ)| = |x - (m : ℚ) / 1000000| * 1000000 := by
          rw [← hexp, abs_mul]
          norm_num
      _ ≤ ((m : ℚ) / 1000000 / 9007199254740992) * 1000000 := by
          apply mul_le_mul_of_nonneg_right h1 (by norm_num)
      _ = (m : ℚ) / 9007199254740992 := by field_simp; ring
  have habs : |x * 1000000 - ((m : ℤ) : ℚ)| < 1 / 2 := by
    have hcast : ((m : ℤ) : ℚ) = (m : ℚ) := by push_cast; ring
    rw [hcast]
    linarith [hy]
  have hround : round (x * 1000000) = (m : ℤ) := round_int_of_abs_lt _ _ habs
  rw [hround]
  rw [Int.toNat_natCast]

theorem usdcToAtomic_eval : usdcToAtomic "0.010000" = "10000" := by
  have h := usdcToAtomic_formatFixed6 10000 (by norm_num) (by norm_num)
  have hf : formatFixed6 10000 = "0.010000" := by decide
  have hs : natStr 10000 = "10000" := by decide
  rw [hf, hs] at h
  exact h

theorem atomicToUsdc_eval : atomicToUsdc "10000" = "0.010000" := by
  have h := atomicToUsdc_natStr 10000 (by norm_num) (by norm_num)
  have hf : formatFixed6 10000 = "0.010000" := by decide
  have hs : natStr 10000 = "10000" := by decide
  rw [hf, hs] at h
  exact h

/-! ## Store-level helper lemmas -/

theorem filterHead_map_update (rows : List Payment) (pid : Nat) (f : Payment → Payment)
    (hid : ∀ p, (f p).id = p.id) :
    ((rows.map fun p => if p.id == pid then f p else p).filter
        fun p => p.id == pid).head?
      = ((rows.filter fun p => p.id == pid).head?).map f := by
  induction rows with
  | nil => rfl
  | cons q rows ih =>
    by_cases h : q.id = pid
    · have hb : (q.id == pid) = true := beq_iff_eq.mpr h
      have hb2 : ((f q).id == pid) = true := by rw [hid q]; exact hb
      rw [List.map_cons]
      rw [show (if q.id == pid then f q else q) = f q by rw [hb]; rfl]
      rw [List.filter_cons, List.filter_cons, hb, hb2]
      rw [if_pos rfl, if_pos rfl]
      rfl
    · have hb : (q.id == pid) = false := beq_eq_false_iff_ne.mpr h
      rw [List.map_cons]
      rw [show (if q.id == pid then f q else q) = q by rw [hb]; rfl]
      rw [List.filter_cons, List.filter_cons, hb]
      rw [if_neg (by simp), if_neg (by simp)]
      exact ih

theorem filterHead_append_exists {α : Type} (xs : List α) (a : α) (q : α → Bool)
    (ha : q a = true) :
    ∃ b, ((xs ++ [a]).filter q).head? = some b ∧ q b = true := by
  rw [List.filter_append]
  match hcase : xs.filter q with
  | [] =>
    refine ⟨a, ?_, ha⟩
    simp [hcase, List.filter, ha]
  | b :: bs =>
    refine ⟨b, ?_, ?_⟩
    · simp [hcase]
    · have : b ∈ xs.filter q := by rw [hcase]; exact List.mem_cons_self b bs
      exact (List.mem_filter.mp this).2

theorem map_id_of_ne (rows : List Payment) (pid : Nat) (f : Payment → Payment)
    (h : ∀ p ∈ rows, p.id ≠ pid) :
    (rows.map fun p => if p.id == pid then f p else p) = rows := by
  induction rows with
  | nil => rfl
  | cons q rows ih =>
    have hq : (q.id == pid) = false :=
      beq_eq_false_iff_ne.mpr (h q (List.mem_cons_self q rows))
    simp only [List.map_cons, hq, if_false, List.cons.injEq]
    exact ⟨rfl, ih fun p hp => h p (List.mem_cons_of_mem q hp)⟩

theorem grantAccess_fresh (st : GrantsStore) (blockId : Nat) (w : String) (pid : Option Nat)
    (h : st.rows.filter (fun g => g.blockId == blockId && g.payerWallet == strLower w) = []) :
    grantAccess st blockId w pid
      = (⟨st.nextId, blockId, strLower w, pid⟩,
         ⟨st.rows ++ [⟨st.nextId, blockId, strLower w, pid⟩], st.nextId + 1⟩) := by
  unfold grantAccess
  dsimp only
  rw [h]
  rfl

theorem grantAccess_existing (st : GrantsStore) (blockId : Nat) (w : String)
    (pid : Option Nat) (g : AccessGrant)
    (h : (st.rows.filter fun g => g.blockId == blockId && g.payerWallet == strLower w).head?
      = some g) :
    grantAccess st blockId w pid = (g, st) := by
  unfold grantAccess
  dsimp only
  rw [h]

/-- C4: for every `(contentId, payerAddress)` pair with no existing grant,
calling `grantAccess` twice produces exactly one AccessGrant row for the
pair; the second call returns the record created by the first, unchanged,
leaves the store unchanged, and does not overwrite `paymentId`. -/
theorem grant_idempotent (st : GrantsStore) (blockId : Nat) (w : String)
    (pid1 pid2 : Option Nat)
    (h : st.rows.filter (fun g => g.blockId == blockId && g.payerWallet == strLower w) = []) :
    (grantAccess (grantAccess st blockId w pid1).2 blockId w pid2).1
      = (grantAccess st blockId w pid1).1 ∧
    (grantAccess (grantAccess st blockId w pid1).2 blockId w pid2).2
      = (grantAccess st blockId w pid1).2 ∧
    (grantAccess st blockId w pid1).1.paymentId = pid1 ∧
    ((grantAccess st blockId w pid1).2.rows.filter
        (fun g => g.blockId == blockId && g.payerWallet == strLower w)).length = 1 := by
  have h1 := grantAccess_fresh st blockId w pid1 h
  have hg : (fun g : AccessGrant => g.blockId == blockId && g.payerWallet == strLower w)
      (⟨st.nextId, blockId, strLower w, pid1⟩ : AccessGrant) = true := by simp
  have hfilter2 : ((st.rows ++ [(⟨st.nextId, blockId, strLower w, pid1⟩ : AccessGrant)]).filter
      fun g => g.blockId == blockId && g.payerWallet == strLower w)
        = [(⟨st.nextId, blockId, strLower w, pid1⟩ : AccessGrant)] := by
    rw [List.filter_append, h]
    simp only [List.nil_append]
    rw [List.filter_cons, if_pos (by simp)]
    rfl
  have h2 := grantAccess_existing
    (⟨st.rows ++ [⟨st.nextId, blockId, strLower w, pid1⟩], st.nextId + 1⟩ : GrantsStore)
    blockId w pid2 ⟨st.nextId, blockId, strLower w, pid1⟩
    (by rw [show (⟨st.rows ++ [⟨st.nextId, blockId, strLower w, pid1⟩],
        st.nextId + 1⟩ : GrantsStore).rows
      = st.rows ++ [⟨st.nextId, blockId, strLower w, pid1⟩] from rfl, hfilter2]; rfl)
  rw [h1]
  refine ⟨?_, ?_, rfl, ?_⟩
  · rw [h2]
  · rw [h2]
  · rw [show (⟨st.rows ++ [⟨st.nextId, blockId, strLower w, pid1⟩],
        st.nextId + 1⟩ : GrantsStore).rows
      = st.rows ++ [⟨st.nextId, blockId, strLower w, pid1⟩] from rfl, hfilter2]
    rfl

/-- C4 witness at a concrete input: an empty ledger, block 7, wallet
`"0xAbc"`, first grant with payment id 3, second with payment id 9. -/
theorem grant_idempotent_witness :
    (grantAccess (grantAccess ⟨[], 0⟩ 7 "0xAbc" (some 3)).2 7 "0xAbc" (some 9)).1
      = (grantAccess (⟨[], 0⟩ : GrantsStore) 7 "0xAbc" (some 3)).1 ∧
    (grantAccess (grantAccess ⟨[], 0⟩ 7 "0xAbc" (some 3)).2 7 "0xAbc" (some 9)).2
      = (grantAccess (⟨[], 0⟩ : GrantsStore) 7 "0xAbc" (some 3)).2 ∧
    (grantAccess (⟨[], 0⟩ : GrantsStore) 7 "0xAbc" (some 3)).1.paymentId = some 3 ∧
    ((grantAccess (⟨[], 0⟩ : GrantsStore) 7 "0xAbc" (some 3)).2.rows.filter
        (fun g => g.blockId == 7 && g.payerWallet == strLower "0xAbc")).length = 1 :=
  grant_idempotent ⟨[], 0⟩ 7 "0xAbc" (some 3) (some 9) (by decide)

/-- C5: a content unit with no active paywall row is free — `statusFor`
returns `isPaywalled = false, hasAccess = true` for every payer address;
and a paywalled unit queried with no payer address has `hasAccess = false`. -/
theorem statusFor_free_and_anonymous (pws : List PaywallRow) (gst : GrantsStore)
    (blockId : Nat) (wa : Option String) :
    ((∀ p ∈ pws, p.blockId = blockId → p.active = false) →
      getBlockAccessStatus pws gst blockId wa = ⟨blockId, false, true, none, none⟩) ∧
    ((getBlockAccessStatus pws gst blockId none).isPaywalled = true →
      (getBlockAccessStatus pws gst blockId none).hasAccess = false) := by
  constructor
  · intro hfree
    have hfilter : pws.filter (fun p => p.blockId == blockId && p.active) = [] := by
      rw [List.filter_eq_nil_iff]
      intro p hp
      intro hcon
      rw [Bool.and_eq_true, beq_iff_eq] at hcon
      have := hfree p hp hcon.1
      rw [this] at hcon
      exact Bool.false_ne_true hcon.2
    unfold getBlockAccessStatus
    rw [hfilter]
    rfl
  · intro hpay
    unfold getBlockAccessStatus at hpay ⊢
    rcases hcase : (pws.filter fun p => p.blockId == blockId && p.active).head? with _ | pw
    · rw [hcase] at hpay
      simp at hpay
    · rw [hcase]

/-- C5 witness: an empty registry makes block 42 free for wallet
`"0xAbC"`; a registry with an active paywall for block 42 yields
`hasAccess = false` for an anonymous query. -/
theorem statusFor_free_and_anonymous_witness :
    getBlockAccessStatus [] (⟨[], 0⟩ : GrantsStore) 42 (some "0xAbC")
      = ⟨42, false, true, none, none⟩ ∧
    (getBlockAccessStatus [⟨"p1", 42, some "u1", "0.010000", "0xaaa", true⟩]
        (⟨[], 0⟩ : GrantsStore) 42 none).hasAccess = false := by
  constructor
  · exact (statusFor_free_and_anonymous [] ⟨[], 0⟩ 42 (some "0xAbC")).1
      (by intro p hp; simp at hp)
  · exact (statusFor_free_and_anonymous
      [⟨"p1", 42, some "u1", "0.010000", "0xaaa", true⟩] ⟨[], 0⟩ 42 none).2 (by decide)

/-- C9: update and delete on an existing paywall by a requester other
than the owner fail with the `FORBIDDEN` error kind (distinct from
`NOT_FOUND`) and leave the paywall table unchanged. -/
theorem non_owner_update_delete_forbidden (pws : List PaywallRow) (blockId : Nat)
    (requesterId : String) (updates : UpdatePaywallParams) (pw : PaywallRow)
    (hfind : getPaywallByBlockId pws blockId = some pw)
    (hown : pw.ownerUserId ≠ some requesterId) :
    updatePaywall pws blockId requesterId updates
      = (.error ⟨"You do not own this paywall", .FORBIDDEN⟩, pws) ∧
    deletePaywall pws blockId requesterId
      = (.error ⟨"You do not own this paywall", .FORBIDDEN⟩, pws) ∧
    PaywallErrorCode.FORBIDDEN ≠ PaywallErrorCode.NOT_FOUND := by
  have hbne : (pw.ownerUserId != some requesterId) = true := bne_iff_ne.mpr hown
  refine ⟨?_, ?_, by decide⟩
  · unfold updatePaywall
    rw [hfind]
    dsimp only
    rw [hbne]
    rfl
  · unfold deletePaywall
    rw [hfind]
    dsimp only
    rw [hbne]
    rfl

/-- C9 witness: a one-row table owned by `"owner1"`, updated and deleted
by `"intruder"`. -/
theorem non_owner_update_delete_forbidden_witness :
    updatePaywall [⟨"p1", 5, some "owner1", "0.010000", "0xaaa", true⟩] 5 "intruder"
        ⟨some "0.020000", none, none⟩
      = (.error ⟨"You do not own this paywall", .FORBIDDEN⟩,
         [⟨"p1", 5, some "owner1", "0.010000", "0xaaa", true⟩]) ∧
    deletePaywall [⟨"p1", 5, some "owner1", "0.010000", "0xaaa", true⟩] 5 "intruder"
      = (.error ⟨"You do not own this paywall", .FORBIDDEN⟩,
         [⟨"p1", 5, some "owner1", "0.010000", "0xaaa", true⟩]) ∧
    PaywallErrorCode.FORBIDDEN ≠ PaywallErrorCode.NOT_FOUND :=
  non_owner_update_delete_forbidden
    [⟨"p1", 5, some "owner1", "0.010000", "0xaaa", true⟩] 5 "intruder"
    ⟨some "0.020000", none, none⟩ ⟨"p1", 5, some "owner1", "0.010000", "0xaaa", true⟩
    (by decide) (by decide)

/-- C8: evaluated at the failing input — a registry with active paywalls
on blocks 1 and 2 and an inactive one on block 3, batch-looked-up for
`[1, 2, 3]` — `getPaywallsForBlocks` returns the correct mapping (only
the active ids), but issues 4 store queries (one discarded bulk select
plus one per requested id) instead of the single bulk fetch the
specification requires. -/
theorem batchLookup_per_item_queries :
    getPaywallsForBlocks
      [⟨"p1", 1, some "u1", "0.010000", "0xaaa", true⟩,
       ⟨"p2", 2, some "u2", "0.020000", "0xbbb", true⟩,
       ⟨"p3", 3, some "u3", "0.030000", "0xccc", false⟩]
      [1, 2, 3]
      = ([(1, "0.010000", true), (2, "0.020000", true)], 4) ∧ (4 : Nat) ≠ 1 := by
  constructor
  · decide
  · decide

/-- C6 counterexample: the bare store operations do not protect terminal
states — `recordPayment` then `settlePayment` reaches `"settled"`, and a
subsequent `failPayment` on the same id overwrites it to `"failed"`,
reversing a terminal state. -/
theorem settled_overwritten_by_failPayment :
    (getPaymentById (settlePayment (recordPayment ⟨[], 0⟩
        ⟨"pw", "0xAbc", "0.010000", none⟩).2 0 "0xtx").2 0).map Payment.status
      = some "settled" ∧
    (getPaymentById (failPayment (settlePayment (recordPayment ⟨[], 0⟩
        ⟨"pw", "0xAbc", "0.010000", none⟩).2 0 "0xtx").2 0 (some "late failure")).2 0).map
        Payment.status = some "failed" := by
  decide

theorem getPaymentById_failPayment_after_record (pst : PaymentsStore)
    (params : RecordPaymentParams) (r : Option String) :
    ∃ p, getPaymentById (failPayment (recordPayment pst params).2 pst.nextId r).2
        pst.nextId = some p ∧ p.status = "failed" := by
  unfold recordPayment failPayment getPaymentById
  dsimp only
  rw [filterHead_map_update _ pst.nextId
    (fun p => { p with status := "failed" }) (fun p => rfl)]
  obtain ⟨b, hb, hbq⟩ := filterHead_append_exists pst.rows
    ({ id := pst.nextId, paywallId := params.paywallId
       payerWallet := strLower params.payerWallet, amountUsdc := params.amountUsdc
       payerUserId := params.payerUserId, txHash := none
       status := "pending", settledAt := false } : Payment)
    (fun p => p.id == pst.nextId) (by simp)
  rw [hb]
  exact ⟨_, rfl, rfl⟩

theorem getPaymentById_settlePayment_after_record (pst : PaymentsStore)
    (params : RecordPaymentParams) (tx : String) :
    ∃ p, getPaymentById (settlePayment (recordPayment pst params).2 pst.nextId tx).2
        pst.nextId = some p ∧ p.status = "settled" := by
  unfold recordPayment settlePayment getPaymentById
  dsimp only
  rw [filterHead_map_update _ pst.nextId
    (fun p => { p with status := "settled", txHash := some tx, settledAt := true })
    (fun p => rfl)]
  obtain ⟨b, hb, hbq⟩ := filterHead_append_exists pst.rows
    ({ id := pst.nextId, paywallId := params.paywallId
       payerWallet := strLower params.payerWallet, amountUsdc := params.amountUsdc
       payerUserId := params.payerUserId, txHash := none
       status := "pending", settledAt := false } : Payment)
    (fun p => p.id == pst.nextId) (by simp)
  rw [hb]
  exact ⟨_, rfl, rfl⟩

/-- C1: whenever a decoded proof passes the requirement checks (so a
pending PaymentRecord is created), `processPayment` leaves that record in
a terminal state — `"settled"` or `"failed"`, never `"pending"` — for
every oracle outcome: verify throws, verify invalid, settle throws,
settle reports failure, or settle succeeds. -/
theorem settle_reaches_terminal_status (o : Oracle) (pw : PaywallRow) (blockId : Nat)
    (wa : Option String) (pl : PaymentPayload) (st : SysState)
    (hm : pl.accepted.amount = usdcToAtomic pw.priceUsdc)
    (hp : strLower pl.accepted.payTo = strLower pw.recipientWallet) :
    ∃ p : Payment,
      getPaymentById (processPayment o pw blockId wa (some pl) st).2.payments
          st.payments.nextId = some p ∧
      (p.status = "settled" ∨ p.status = "failed") ∧ p.status ≠ "pending" := by
  have hb1 : ¬((pl.accepted.amount != usdcToAtomic pw.priceUsdc) = true) := by
    rw [hm]
    simp
  have hb2 : ¬((strLower pl.accepted.payTo != strLower pw.recipientWallet) = true) := by
    rw [hp]
    simp
  obtain ⟨vo, so⟩ := o
  unfold processPayment
  dsimp only
  rw [if_neg hb1, if_neg hb2]
  cases vo with
  | error e =>
    dsimp only
    obtain ⟨p, hpj, hps⟩ := getPaymentById_failPayment_after_record st.payments
      { paywallId := pw.id
        payerWallet := jsOr wa (jsOr pl.payloadPayer "unknown")
        amountUsdc := pw.priceUsdc, payerUserId := none } (some e)
    exact ⟨p, hpj, Or.inr hps, by rw [hps]; decide⟩
  | ok vr =>
    dsimp only
    by_cases hv : vr.isValid
    · rw [if_neg (by rw [hv]; simp)]
      cases so with
      | error e =>
        dsimp only
        obtain ⟨p, hpj, hps⟩ := getPaymentById_failPayment_after_record st.payments
          { paywallId := pw.id
            payerWallet := jsOr wa (jsOr pl.payloadPayer "unknown")
            amountUsdc := pw.priceUsdc, payerUserId := none } (some e)
        exact ⟨p, hpj, Or.inr hps, by rw [hps]; decide⟩
      | ok sr =>
        dsimp only
        by_cases hs : sr.success
        · rw [if_neg (by rw [hs]; simp)]
          obtain ⟨p, hpj, hps⟩ := getPaymentById_settlePayment_after_record st.payments
            { paywallId := pw.id
              payerWallet := jsOr wa (jsOr pl.payloadPayer "unknown")
              amountUsdc := pw.priceUsdc, payerUserId := none } sr.transaction
          exact ⟨p, hpj, Or.inl hps, by rw [hps]; decide⟩
        · rw [if_pos (by rw [Bool.eq_false_iff.mpr hs]; simp)]
          obtain ⟨p, hpj, hps⟩ := getPaymentById_failPayment_after_record st.payments
            { paywallId := pw.id
              payerWallet := jsOr wa (jsOr pl.payloadPayer "unknown")
              amountUsdc := pw.priceUsdc, payerUserId := none } sr.errorReason
          exact ⟨p, hpj, Or.inr hps, by rw [hps]; decide⟩
    · rw [if_pos (by rw [Bool.eq_false_iff.mpr hv]; simp)]
      obtain ⟨p, hpj, hps⟩ := getPaymentById_failPayment_after_record st.payments
        { paywallId := pw.id
          payerWallet := jsOr wa (jsOr pl.payloadPayer "unknown")
          amountUsdc := pw.priceUsdc, payerUserId := none } vr.invalidReason
      exact ⟨p, hpj, Or.inr hps, by rw [hps]; decide⟩

/-- C1 witness: concrete paywall at price `"0.010000"`, matching proof,
oracle settling successfully; the created record (id 0) is terminal. -/
theorem settle_reaches_terminal_status_witness :
    ∃ p : Payment,
      getPaymentById (processPayment ⟨.ok ⟨true, none, none⟩, .ok ⟨true, none, "0xtx", none⟩⟩
          ⟨"p1", 7, some "u1", "0.010000", "0xAAA", true⟩ 7 (some "0xPayer")
          (some ⟨⟨"10000", "0xaaa"⟩, none⟩) ⟨⟨[], 0⟩, ⟨[], 0⟩⟩).2.payments 0 = some p ∧
      (p.status = "settled" ∨ p.status = "failed") ∧ p.status ≠ "pending" :=
  settle_reaches_terminal_status ⟨.ok ⟨true, none, none⟩, .ok ⟨true, none, "0xtx", none⟩⟩
    ⟨"p1", 7, some "u1", "0.010000", "0xAAA", true⟩ 7 (some "0xPayer")
    ⟨⟨"10000", "0xaaa"⟩, none⟩ ⟨⟨[], 0⟩, ⟨[], 0⟩⟩
    usdcToAtomic_eval.symm (by decide)

/-- C2: if the proof's accepted requirement does not match the paywall —
the amounts differ as integer minor units, or the payout addresses differ
case-insensitively — `processPayment` fails with a requirement-mismatch
error, leaves both stores untouched (no PaymentRecord is created) and is
independent of the oracle (no oracle call is made). -/
theorem requirement_mismatch_no_record_no_oracle (o₁ o₂ : Oracle) (pw : PaywallRow)
    (blockId : Nat) (wa : Option String) (pl : PaymentPayload) (st : SysState)
    (hmm : jsParseInt pl.accepted.amount ≠ jsParseInt (usdcToAtomic pw.priceUsdc) ∨
      strLower pl.accepted.payTo ≠ strLower pw.recipientWallet) :
    processPayment o₁ pw blockId wa (some pl) st
      = processPayment o₂ pw blockId wa (some pl) st ∧
    (processPayment o₁ pw blockId wa (some pl) st).2 = st ∧
    (processPayment o₁ pw blockId wa (some pl) st).1.success = false ∧
    ((processPayment o₁ pw blockId wa (some pl) st).1.error
        = some ("Payment amount mismatch. Expected " ++ usdcToAtomic pw.priceUsdc
            ++ ", got " ++ pl.accepted.amount) ∨
      (processPayment o₁ pw blockId wa (some pl) st).1.error
        = some "Payment recipient mismatch") := by
  by_cases hamt : pl.accepted.amount = usdcToAtomic pw.priceUsdc
  · have hpay : strLower pl.accepted.payTo ≠ strLower pw.recipientWallet := by
      rcases hmm with h | h
      · exact absurd (congrArg jsParseInt hamt) h
      · exact h
    have hb1 : ¬((pl.accepted.amount != usdcToAtomic pw.priceUsdc) = true) := by
      rw [hamt]
      simp
    have hb2 : (strLower pl.accepted.payTo != strLower pw.recipientWallet) = true :=
      bne_iff_ne.mpr hpay
    unfold processPayment
    dsimp only
    rw [if_neg hb1, if_neg hb1, if_pos hb2, if_pos hb2]
    exact ⟨rfl, rfl, rfl, Or.inr rfl⟩
  · have hb1 : (pl.accepted.amount != usdcToAtomic pw.priceUsdc) = true :=
      bne_iff_ne.mpr hamt
    unfold processPayment
    dsimp only
    rw [if_pos hb1, if_pos hb1]
    exact ⟨rfl, rfl, rfl, Or.inl rfl⟩

/-- C2 witness: a proof accepting amount `"9999"` against a paywall
priced `"0.010000"` (minor units `"10000"`) is rejected with no state
change, identically for two different oracles. -/
theorem requirement_mismatch_no_record_no_oracle_witness :
    processPayment ⟨.ok ⟨true, none, none⟩, .ok ⟨true, none, "0xtx", none⟩⟩
        ⟨"p1", 7, some "u1", "0.010000", "0xAAA", true⟩ 7 none
        (some ⟨⟨"9999", "0xaaa"⟩, none⟩) ⟨⟨[], 0⟩, ⟨[], 0⟩⟩
      = processPayment ⟨.error "down", .error "down"⟩
        ⟨"p1", 7, some "u1", "0.010000", "0xAAA", true⟩ 7 none
        (some ⟨⟨"9999", "0xaaa"⟩, none⟩) ⟨⟨[], 0⟩, ⟨[], 0⟩⟩ ∧
    (processPayment ⟨.ok ⟨true, none, none⟩, .ok ⟨true, none, "0xtx", none⟩⟩
        ⟨"p1", 7, some "u1", "0.010000", "0xAAA", true⟩ 7 none
        (some ⟨⟨"9999", "0xaaa"⟩, none⟩) ⟨⟨[], 0⟩, ⟨[], 0⟩⟩).2
      = ⟨⟨[], 0⟩, ⟨[], 0⟩⟩ ∧
    (processPayment ⟨.ok ⟨true, none, none⟩, .ok ⟨true, none, "0xtx", none⟩⟩
        ⟨"p1", 7, some "u1", "0.010000", "0xAAA", true⟩ 7 none
        (some ⟨⟨"9999", "0xaaa"⟩, none⟩) ⟨⟨[], 0⟩, ⟨[], 0⟩⟩).1.success = false ∧
    ((processPayment ⟨.ok ⟨true, none, none⟩, .ok ⟨true, none, "0xtx", none⟩⟩
        ⟨"p1", 7, some "u1", "0.010000", "0xAAA", true⟩ 7 none
        (some ⟨⟨"9999", "0xaaa"⟩, none⟩) ⟨⟨[], 0⟩, ⟨[], 0⟩⟩).1.error
        = some ("Payment amount mismatch. Expected "
            ++ usdcToAtomic "0.010000" ++ ", got " ++ "9999") ∨
      (processPayment ⟨.ok ⟨true, none, none⟩, .ok ⟨true, none, "0xtx", none⟩⟩
        ⟨"p1", 7, some "u1", "0.010000", "0xAAA", true⟩ 7 none
        (some ⟨⟨"9999", "0xaaa"⟩, none⟩) ⟨⟨[], 0⟩, ⟨[], 0⟩⟩).1.error
        = some "Payment recipient mismatch") :=
  requirement_mismatch_no_record_no_oracle
    ⟨.ok ⟨true, none, none⟩, .ok ⟨true, none, "0xtx", none⟩⟩
    ⟨.error "down", .error "down"⟩
    ⟨"p1", 7, some "u1", "0.010000", "0xAAA", true⟩ 7 none
    ⟨⟨"9999", "0xaaa"⟩, none⟩ ⟨⟨[], 0⟩, ⟨[], 0⟩⟩
    (Or.inl (by rw [usdcToAtomic_eval]; decide))

theorem rows_after_update (pst : PaymentsStore) (params : RecordPaymentParams)
    (f : Payment → Payment)
    (hwf : ∀ p ∈ pst.rows, p.id < pst.nextId) :
    ((recordPayment pst params).2.rows.map
        fun p => if p.id == (recordPayment pst params).1.id then f p else p)
      = pst.rows ++ [f (recordPayment pst params).1] := by
  unfold recordPayment
  dsimp only
  rw [List.map_append]
  rw [map_id_of_ne _ _ _ (fun p hp => Nat.ne_of_lt (hwf p hp))]
  simp

/-- C6 (amended): the transitions `pending → settled` and
`pending → failed` hold for the operation sequences the settlement
coordinator actually performs: `recordPayment` always creates the record
in `"pending"` status, and a `processPayment` run whose requirement
checks pass appends exactly one row — the freshly created record, moved
exactly once from `"pending"` to a terminal status — while every
pre-existing row is left byte-for-byte unchanged. -/
theorem coordinator_status_transitions (o : Oracle) (pw : PaywallRow) (blockId : Nat)
    (wa : Option String) (pl : PaymentPayload) (st : SysState)
    (hm : pl.accepted.amount = usdcToAtomic pw.priceUsdc)
    (hp : strLower pl.accepted.payTo = strLower pw.recipientWallet)
    (hwf : ∀ p ∈ st.payments.rows, p.id < st.payments.nextId) :
    (recordPayment st.payments
        ⟨pw.id, jsOr wa (jsOr pl.payloadPayer "unknown"), pw.priceUsdc, none⟩).1.status
      = "pending" ∧
    ∃ p' : Payment,
      (processPayment o pw blockId wa (some pl) st).2.payments.rows
        = st.payments.rows ++ [p'] ∧
      p'.id = st.payments.nextId ∧
      (p'.status = "settled" ∨ p'.status = "failed") := by
  refine ⟨rfl, ?_⟩
  have hb1 : ¬((pl.accepted.amount != usdcToAtomic pw.priceUsdc) = true) := by
    rw [hm]
    simp
  have hb2 : ¬((strLower pl.accepted.payTo != strLower pw.recipientWallet) = true) := by
    rw [hp]
    simp
  obtain ⟨vo, so⟩ := o
  unfold processPayment failPayment settlePayment
  dsimp only
  rw [if_neg hb1, if_neg hb2]
  cases vo with
  | error e =>
    dsimp only
    rw [rows_after_update st.payments _ (fun p => { p with status := "failed" }) hwf]
    exact ⟨_, rfl, rfl, Or.inr rfl⟩
  | ok vr =>
    dsimp only
    by_cases hv : vr.isValid
    · rw [if_neg (by rw [hv]; simp)]
      cases so with
      | error e =>
        dsimp only
        rw [rows_after_update st.payments _ (fun p => { p with status := "failed" }) hwf]
        exact ⟨_, rfl, rfl, Or.inr rfl⟩
      | ok sr =>
        dsimp only
        by_cases hs : sr.success
        · rw [if_neg (by rw [hs]; simp)]
          have hset := rows_after_update st.payments
            ⟨pw.id, jsOr wa (jsOr pl.payloadPayer "unknown"), pw.priceUsdc, none⟩
            (fun p => { p with status := "settled", txHash := some sr.transaction, settledAt := true }) hwf
          rw [hset]
          exact ⟨_, rfl, rfl, Or.inl rfl⟩
        · rw [if_pos (by rw [Bool.eq_false_iff.mpr hs]; simp)]
          rw [rows_after_update st.payments _ (fun p => { p with status := "failed" }) hwf]
          exact ⟨_, rfl, rfl, Or.inr rfl⟩
    · rw [if_pos (by rw [Bool.eq_false_iff.mpr hv]; simp)]
      rw [rows_after_update st.payments _ (fun p => { p with status := "failed" }) hwf]
      exact ⟨_, rfl, rfl, Or.inr rfl⟩

/-- C6 (amended) witness: the success run of the C1 witness appends one
settled record to an empty store, created pending. -/
theorem coordinator_status_transitions_witness :
    (recordPayment (⟨[], 0⟩ : PaymentsStore)
        ⟨"p1", jsOr (some "0xPayer") (jsOr none "unknown"), "0.010000", none⟩).1.status
      = "pending" ∧
    ∃ p' : Payment,
      (processPayment ⟨.ok ⟨true, none, none⟩, .ok ⟨true, none, "0xtx", none⟩⟩
          ⟨"p1", 7, some "u1", "0.010000", "0xAAA", true⟩ 7 (some "0xPayer")
          (some ⟨⟨"10000", "0xaaa"⟩, none⟩) ⟨⟨[], 0⟩, ⟨[], 0⟩⟩).2.payments.rows
        = ([] : List Payment) ++ [p'] ∧
      p'.id = 0 ∧
      (p'.status = "settled" ∨ p'.status = "failed") :=
  coordinator_status_transitions
    ⟨.ok ⟨true, none, none⟩, .ok ⟨true, none, "0xtx", none⟩⟩
    ⟨"p1", 7, some "u1", "0.010000", "0xAAA", true⟩ 7 (some "0xPayer")
    ⟨⟨"10000", "0xaaa"⟩, none⟩ ⟨⟨[], 0⟩, ⟨[], 0⟩⟩
    usdcToAtomic_eval.symm (by decide) (by intro p hp; simp at hp)

/-- C7 (amended): when the oracle's settle call throws, the coordinator
treats it like a reported failure: the PaymentRecord transitions to
`"failed"` (never left `"pending"`) and the error's message is returned
to the caller and passed to `failPayment` — but `failPayment` discards
its reason argument (the `payments` schema has no reason column), so the
resulting state is identical for every error message: no reason is
persisted on the record. -/
theorem settle_throw_marks_failed_reason_discarded (pw : PaywallRow) (blockId : Nat)
    (wa : Option String) (pl : PaymentPayload) (st : SysState) (e : String)
    (vr : VerifyResult) (hv : vr.isValid = true)
    (hm : pl.accepted.amount = usdcToAtomic pw.priceUsdc)
    (hp : strLower pl.accepted.payTo = strLower pw.recipientWallet) :
    (processPayment ⟨.ok vr, .error e⟩ pw blockId wa (some pl) st).1.error = some e ∧
    (∃ p, getPaymentById
        (processPayment ⟨.ok vr, .error e⟩ pw blockId wa (some pl) st).2.payments
        st.payments.nextId = some p ∧ p.status = "failed" ∧ p.status ≠ "pending") ∧
    (∀ e' : String,
      (processPayment ⟨.ok vr, .error e'⟩ pw blockId wa (some pl) st).2
        = (processPayment ⟨.ok vr, .error e⟩ pw blockId wa (some pl) st).2) := by
  have hb1 : ¬((pl.accepted.amount != usdcToAtomic pw.priceUsdc) = true) := by
    rw [hm]
    simp
  have hb2 : ¬((strLower pl.accepted.payTo != strLower pw.recipientWallet) = true) := by
    rw [hp]
    simp
  refine ⟨?_, ?_, ?_⟩
  · unfold processPayment
    dsimp only
    rw [if_neg hb1, if_neg hb2]
    rw [if_neg (by rw [hv]; simp)]
  · unfold processPayment
    dsimp only
    rw [if_neg hb1, if_neg hb2]
    rw [if_neg (by rw [hv]; simp)]
    exact (getPaymentById_failPayment_after_record st.payments
      ⟨pw.id, jsOr wa (jsOr pl.payloadPayer "unknown"), pw.priceUsdc, none⟩ (some e)).imp
      (fun p hp2 => ⟨hp2.1, hp2.2, by rw [hp2.2]; decide⟩)
  · intro e'
    unfold processPayment failPayment
    dsimp only
    rw [if_neg hb1, if_neg hb1, if_neg hb2, if_neg hb2]
    rw [if_neg (by rw [hv]; simp), if_neg (by rw [hv]; simp)]

/-- C7 witness: concrete run where settle throws `"network timeout"`. -/
theorem settle_throw_marks_failed_reason_discarded_witness :
    (processPayment ⟨.ok ⟨true, none, none⟩, .error "network timeout"⟩
        ⟨"p1", 7, some "u1", "0.010000", "0xAAA", true⟩ 7 (some "0xPayer")
        (some ⟨⟨"10000", "0xaaa"⟩, none⟩) ⟨⟨[], 0⟩, ⟨[], 0⟩⟩).1.error
      = some "network timeout" ∧
    (∃ p, getPaymentById
        (processPayment ⟨.ok ⟨true, none, none⟩, .error "network timeout"⟩
          ⟨"p1", 7, some "u1", "0.010000", "0xAAA", true⟩ 7 (some "0xPayer")
          (some ⟨⟨"10000", "0xaaa"⟩, none⟩) ⟨⟨[], 0⟩, ⟨[], 0⟩⟩).2.payments 0
        = some p ∧ p.status = "failed" ∧ p.status ≠ "pending") ∧
    (∀ e' : String,
      (processPayment ⟨.ok ⟨true, none, none⟩, .error e'⟩
          ⟨"p1", 7, some "u1", "0.010000", "0xAAA", true⟩ 7 (some "0xPayer")
          (some ⟨⟨"10000", "0xaaa"⟩, none⟩) ⟨⟨[], 0⟩, ⟨[], 0⟩⟩).2
        = (processPayment ⟨.ok ⟨true, none, none⟩, .error "network timeout"⟩
          ⟨"p1", 7, some "u1", "0.010000", "0xAAA", true⟩ 7 (some "0xPayer")
          (some ⟨⟨"10000", "0xaaa"⟩, none⟩) ⟨⟨[], 0⟩, ⟨[], 0⟩⟩).2) :=
  settle_throw_marks_failed_reason_discarded
    ⟨"p1", 7, some "u1", "0.010000", "0xAAA", true⟩ 7 (some "0xPayer")
    ⟨⟨"10000", "0xaaa"⟩, none⟩ ⟨⟨[], 0⟩, ⟨[], 0⟩⟩ "network timeout"
    ⟨true, none, none⟩ rfl usdcToAtomic_eval.symm (by decide)

/-- C7 counterexample: against the claim that the error's message is
stored as the recorded reason, two settle-throw runs that differ only in
the thrown message produce bit-identical stores, and the failed record —
shown in full — contains the message nowhere (the schema has no reason
field; `failPayment` ignores its reason argument). -/
theorem settle_throw_reason_not_recorded_counterexample :
    (processPayment ⟨.ok ⟨true, none, none⟩, .error "network timeout"⟩
        ⟨"p1", 7, some "u1", "0.010000", "0xAAA", true⟩ 7 (some "0xPayer")
        (some ⟨⟨"10000", "0xaaa"⟩, none⟩) ⟨⟨[], 0⟩, ⟨[], 0⟩⟩).2
      = (processPayment ⟨.ok ⟨true, none, none⟩, .error "completely different reason"⟩
        ⟨"p1", 7, some "u1", "0.010000", "0xAAA", true⟩ 7 (some "0xPayer")
        (some ⟨⟨"10000", "0xaaa"⟩, none⟩) ⟨⟨[], 0⟩, ⟨[], 0⟩⟩).2 ∧
    getPaymentById (processPayment ⟨.ok ⟨true, none, none⟩, .error "network timeout"⟩
        ⟨"p1", 7, some "u1", "0.010000", "0xAAA", true⟩ 7 (some "0xPayer")
        (some ⟨⟨"10000", "0xaaa"⟩, none⟩) ⟨⟨[], 0⟩, ⟨[], 0⟩⟩).2.payments 0
      = some ⟨0, "p1", "0xpayer", none, "0.010000", none, "failed", false⟩ := by
  constructor
  · simp only [processPayment, usdcToAtomic_eval]
    decide
  · simp only [processPayment, usdcToAtomic_eval]
    decide

theorem getPaymentById_settle_after_record_wf (pst : PaymentsStore)
    (params : RecordPaymentParams) (tx : String)
    (hwf : ∀ p ∈ pst.rows, p.id < pst.nextId) :
    getPaymentById (settlePayment (recordPayment pst params).2 pst.nextId tx).2
        pst.nextId
      = some { (recordPayment pst params).1 with
               status := "settled", txHash := some tx, settledAt := true } := by
  unfold recordPayment settlePayment getPaymentById
  dsimp only
  rw [filterHead_map_update _ pst.nextId
    (fun p => { p with status := "settled", txHash := some tx, settledAt := true })
    (fun p => rfl)]
  have hempty : pst.rows.filter (fun p => p.id == pst.nextId) = [] := by
    rw [List.filter_eq_nil_iff]
    intro p hp hcon
    exact absurd (beq_iff_eq.mp hcon) (Nat.ne_of_lt (hwf p hp))
  rw [List.filter_append, hempty]
  simp only [List.nil_append]
  rw [List.filter_cons, if_pos (by simp)]
  rfl

theorem hasAccess_after_grantAccess (gst : GrantsStore) (blockId : Nat) (w : String)
    (pid : Option Nat) (hw : w.isEmpty = false) :
    hasAccess (grantAccess gst blockId w pid).2 blockId w = true := by
  unfold grantAccess hasAccess
  dsimp only
  rcases hcase : (gst.rows.filter fun g =>
      g.blockId == blockId && g.payerWallet == strLower w).head? with _ | g
  · rw [hcase]
    dsimp only
    simp only [hw, Bool.false_eq_true, if_false]
    have hnil : gst.rows.filter (fun g =>
        g.blockId == blockId && g.payerWallet == strLower w) = [] :=
      List.head?_eq_none_iff.mp hcase
    rw [List.filter_append, hnil]
    simp only [List.nil_append]
    rw [List.filter_cons, if_pos (by simp)]
    rfl
  · rw [hcase]
    dsimp only
    simp only [hw, Bool.false_eq_true, if_false]
    rw [hcase]
    rfl

/-- C10: when no payer address accompanies the request, the proof payload
carries no payer, and the oracle's verify and settle responses report no
payer, the coordinator records the PaymentRecord with the literal payer
wallet `"unknown"`, reports `"unknown"` as the resolved payer, and the
resulting AccessGrant is for wallet `"unknown"` — so a later requester
presenting the wallet `"unknown"` passes the access check for that
block. -/
theorem unknown_payer_grant (pw : PaywallRow) (blockId : Nat) (st : SysState)
    (tx : String) (ir : Option String) (pl : PaymentPayload)
    (hnopayer : pl.payloadPayer = none)
    (hm : pl.accepted.amount = usdcToAtomic pw.priceUsdc)
    (hp : strLower pl.accepted.payTo = strLower pw.recipientWallet)
    (hwf : ∀ p ∈ st.payments.rows, p.id < st.payments.nextId) :
    (processPayment ⟨.ok ⟨true, ir, none⟩, .ok ⟨true, none, tx, none⟩⟩ pw blockId none
        (some pl) st).1.payer = some "unknown" ∧
    getPaymentById (processPayment ⟨.ok ⟨true, ir, none⟩, .ok ⟨true, none, tx, none⟩⟩
        pw blockId none (some pl) st).2.payments st.payments.nextId
      = some ⟨st.payments.nextId, pw.id, "unknown", none, pw.priceUsdc,
              some tx, "settled", true⟩ ∧
    hasAccess (processPayment ⟨.ok ⟨true, ir, none⟩, .ok ⟨true, none, tx, none⟩⟩
        pw blockId none (some pl) st).2.grants blockId "unknown" = true := by
  have hb1 : ¬((pl.accepted.amount != usdcToAtomic pw.priceUsdc) = true) := by
    rw [hm]
    simp
  have hb2 : ¬((strLower pl.accepted.payTo != strLower pw.recipientWallet) = true) := by
    rw [hp]
    simp
  refine ⟨?_, ?_, ?_⟩
  · unfold processPayment
    dsimp only
    rw [if_neg hb1, if_neg hb2]
    rw [if_neg (by simp), if_neg (by simp)]
    rw [hnopayer]
    rfl
  · unfold processPayment
    dsimp only
    rw [if_neg hb1, if_neg hb2]
    rw [if_neg (by simp), if_neg (by simp)]
    rw [hnopayer]
    dsimp only
    exact getPaymentById_settle_after_record_wf st.payments
      ⟨pw.id, jsOr none (jsOr none "unknown"), pw.priceUsdc, none⟩ tx hwf
  · unfold processPayment
    dsimp only
    rw [if_neg hb1, if_neg hb2]
    rw [if_neg (by simp), if_neg (by simp)]
    rw [hnopayer]
    dsimp only
    exact hasAccess_after_grantAccess st.grants blockId "unknown" _ (by decide)

/-- C10 witness: anonymous request, payload without payer, oracle
reporting no payer: the record and the grant are for `"unknown"`. -/
theorem unknown_payer_grant_witness :
    (processPayment ⟨.ok ⟨true, none, none⟩, .ok ⟨true, none, "0xtx", none⟩⟩
        ⟨"p1", 7, some "u1", "0.010000", "0xAAA", true⟩ 7 none
        (some ⟨⟨"10000", "0xaaa"⟩, none⟩) ⟨⟨[], 0⟩, ⟨[], 0⟩⟩).1.payer = some "unknown" ∧
    getPaymentById (processPayment ⟨.ok ⟨true, none, none⟩, .ok ⟨true, none, "0xtx", none⟩⟩
        ⟨"p1", 7, some "u1", "0.010000", "0xAAA", true⟩ 7 none
        (some ⟨⟨"10000", "0xaaa"⟩, none⟩) ⟨⟨[], 0⟩, ⟨[], 0⟩⟩).2.payments 0
      = some ⟨0, "p1", "unknown", none, "0.010000", some "0xtx", "settled", true⟩ ∧
    hasAccess (processPayment ⟨.ok ⟨true, none, none⟩, .ok ⟨true, none, "0xtx", none⟩⟩
        ⟨"p1", 7, some "u1", "0.010000", "0xAAA", true⟩ 7 none
        (some ⟨⟨"10000", "0xaaa"⟩, none⟩) ⟨⟨[], 0⟩, ⟨[], 0⟩⟩).2.grants 7 "unknown" = true :=
  unknown_payer_grant ⟨"p1", 7, some "u1", "0.010000", "0xAAA", true⟩ 7
    ⟨⟨[], 0⟩, ⟨[], 0⟩⟩ "0xtx" none ⟨⟨"10000", "0xaaa"⟩, none⟩ rfl
    usdcToAtomic_eval.symm (by decide) (by intro p hp; simp at hp)

/-- C3: for every price expressible in the ledger's `decimal(10,6)`
domain (minor units `m` with `0 < m < 10^10`), the source's conversion
pipeline — `parseFloat`, binary64 multiplication by `1e6`, `toFixed(0)`,
modelled bit-exactly — produces exactly the integer minor-unit string
(the same result as exact decimal scaling, with no floating-point
drift), and the reverse conversion maps it back to the original
six-decimal price string: the round-trip is exact. -/
theorem usdc_minor_units_exact_roundtrip (m : ℕ) (h0 : 0 < m) (hm : m < 10 ^ 10) :
    usdcToAtomic (formatFixed6 m) = natStr m ∧
    atomicToUsdc (natStr m) = formatFixed6 m :=
  ⟨usdcToAtomic_formatFixed6 m h0 hm, atomicToUsdc_natStr m h0 hm⟩

/-- C3 witness: the spec's own example — `"0.010000"` converts to
exactly `"10000"` and back to `"0.010000"`. -/
theorem usdc_minor_units_exact_roundtrip_witness :
    usdcToAtomic "0.010000" = "10000" ∧ atomicToUsdc "10000" = "0.010000" := by
  have h := usdc_minor_units_exact_roundtrip 10000 (by norm_num) (by norm_num)
  have hf : formatFixed6 10000 = "0.010000" := by decide
  have hs : natStr 10000 = "10000" := by decide
  rw [hf, hs] at h
  exact h
